import Mathlib

/-!
# Verification of the gogetcrawl fetch-and-decode pipeline

Shallow embedding of the two source files of the repository
(`common/common.go` and `commoncrawl/commoncrawl.go`) and proofs of the
spec claims about them.

Modelling conventions:
* Go byte slices (`[]byte`) are `List Char`; Go strings are `String`.
* `time.Time` is modelled by `GoTime`: an abstract instant `val : Nat`
  (the zero value is `val = 0`, matching `time.Time.IsZero`) together
  with `ymd`, the string produced by `Format("20060102")` for that
  instant.
* Network calls and the external JSON decoder (`jsoniter.Unmarshal`) are
  oracles passed in explicitly (`CCEnv`); everything the repository
  itself computes is embedded from the source.
* Channels are modelled as the ordered list of values sent on them
  (`Event` traces interleave the results channel and the error channel
  in send order).
* A Go `panic` (nil dereference, index out of range) is modelled as a
  distinguished value (`GetResult.panicNilDeref`) or an `Option.none`
  result, never silently totalised.
-/

namespace GoGetCrawl

/-- Model of Go `time.Time`: `val` is the abstract instant (0 = the zero
value, later instants are larger), `ymd` is the rendering produced by
`Format("20060102")`. -/
structure GoTime where
  val : Nat
  ymd : String := ""
  deriving Repr, DecidableEq

/-- Model of `time.Time.IsZero`. -/
def GoTime.IsZero (t : GoTime) : Bool := t.val == 0

/-- Model of `a.After(b)`: `a` is chronologically strictly after `b`. -/
def GoTime.After (a b : GoTime) : Bool := b.val < a.val

/-- Model of `a.Before(b)`: `a` is chronologically strictly before `b`. -/
def GoTime.Before (a b : GoTime) : Bool := a.val < b.val

/-- Model of `common.CdxResponse`: one CDX capture record.  `Source` is the
provider back-reference (`Source` interface field in Go); providers are
identified by a numeric instance id, `none` models a nil interface. -/
structure CdxResponse where
  Urlkey : String := ""
  Timestamp : String := ""
  Charset : String := ""
  MimeType : String := ""
  Languages : String := ""
  MimeDetected : String := ""
  Digest : String := ""
  Offset : String := ""
  Original : String := ""
  Length : String := ""
  StatusCode : String := ""
  Filename : String := ""
  Source : Option Nat := none
  deriving Repr, DecidableEq

/-- Model of `common.RequestConfig`. `Limit` is Go `uint`, modelled as `Nat`. -/
structure RequestConfig where
  URL : String := ""
  Filters : List String := []
  Limit : Nat := 0
  CollapseColumn : String := ""
  SinglePage : Bool := false
  FromDate : GoTime := { val := 0 }
  ToDate : GoTime := { val := 0 }
  deriving Repr, DecidableEq

/-- Model of `RequestConfig.GetUrl` from `common/common.go`: composes the CDX
query URL by successive conditional appends, exactly in source order
(url/output, limit, collapse, filters, from, to, page). -/
def RequestConfig.GetUrl (config : RequestConfig) (serverURL : String) (page : Nat) : String :=
  let reqURL := serverURL ++ "?url=" ++ config.URL ++ "&output=json"
  let reqURL := if config.Limit ≠ 0 then reqURL ++ "&limit=" ++ toString config.Limit else reqURL
  let reqURL := if config.CollapseColumn ≠ "" then reqURL ++ "&collapse=" ++ config.CollapseColumn else reqURL
  let reqURL := config.Filters.foldl (fun u f => if f ≠ "" then u ++ "&filter=" ++ f else u) reqURL
  let reqURL := if ¬config.FromDate.IsZero then reqURL ++ "&from=" ++ config.FromDate.ymd else reqURL
  let reqURL := if ¬config.ToDate.IsZero then reqURL ++ "&to=" ++ config.ToDate.ymd else reqURL
  if ¬config.SinglePage then reqURL ++ "&page=" ++ toString page else reqURL

/-- Outcome of one attempt of `http.Client.Get` inside `common.Get`:
either a transport error (in which case the Go `*http.Response` is nil),
or a response with a status code and a body. -/
inductive AttemptResult where
  | fail (msg : String)
  | resp (status : Nat) (body : String)
  deriving Repr, DecidableEq

/-- What `common.Get` does after its retry loop. -/
inductive GetResult where
  | panicNilDeref
  | body (b : String)
  deriving Repr, DecidableEq

/-- The retry loop of `common.Get`: `resp, err = client.Get(url)` each
iteration (on a transport error the response is nil), breaking as soon
as `err == nil && resp.StatusCode == 200`.  Returns the response held in
`resp` after the loop, if any. -/
def getLoop : List AttemptResult → Option (Nat × String) → Option (Nat × String)
  | [], last => last
  | a :: rest, _ =>
    match a with
    | .fail _ => getLoop rest none
    | .resp status body =>
      if status = 200 then some (status, body) else getLoop rest (some (status, body))

/-- Model of `common.Get`, with the sequence of attempt outcomes (one per retry,
so `attempts.length = maxRetries`) supplied by the environment.  After
the loop the source runs `defer resp.Body.Close()` and
`io.ReadAll(resp.Body)`; when `resp` is nil (last attempt was a
transport error, or `maxRetries = 0`) this dereferences a nil pointer. -/
def Get (attempts : List AttemptResult) : GetResult :=
  match getLoop attempts none with
  | none => .panicNilDeref
  | some (_, b) => .body b

/-- Model of Go `bytes.Split` on the newline byte: split on each newline byte; the
empty input yields one empty piece. -/
def splitNl : List Char → List (List Char)
  | [] => [[]]
  | c :: rest =>
    match splitNl rest with
    | [] => [[]]
    | l :: ls => if c = '\n' then [] :: l :: ls else (c :: l) :: ls

/-- Inner loop of `CommonCrawl.ParseResponse`: decode each line with the
JSON decoder `unm` (the external `jsoniter.Unmarshal`), failing on the
first malformed line with an error that embeds the raw line text, and
setting the `Source` back-reference of each decoded record to the
provider instance `cc`. -/
def parseLines (unm : List Char → Except String CdxResponse) (cc : Nat) :
    List (List Char) → Except String (List CdxResponse)
  | [] => .ok []
  | l :: ls =>
    match unm l with
    | .error e =>
      .error ("[ParseResponse] Cannot decode JSON line: " ++ e ++ ". Response: " ++ String.mk l)
    | .ok v =>
      match parseLines unm cc ls with
      | .error e => .error e
      | .ok rest => .ok (({ v with Source := some cc } : CdxResponse) :: rest)

/-- Model of `CommonCrawl.ParseResponse` from `commoncrawl/commoncrawl.go`:
rejects empty input, otherwise drops the final byte and splits the rest
on newlines, decoding every line. -/
def ParseResponse (unm : List Char → Except String CdxResponse) (cc : Nat)
    (resp : List Char) : Except String (List CdxResponse) :=
  if resp.length = 0 then .error "Empty response provided"
  else parseLines unm cc (splitNl resp.dropLast)

/-- Constant `commoncrawl.INDEX_SERVER`. -/
def INDEX_SERVER : String := "https://index.commoncrawl.org/"

/-- Model of `commoncrawl.latestIndex`: one entry of `collinfo.json`. -/
structure LatestIndex where
  Id : String := ""
  Name : String := ""
  Timegate : String := ""
  CdxAPI : String := ""
  From : GoTime := { val := 0 }
  To : GoTime := { val := 0 }
  deriving Repr, DecidableEq

/-- Model of `commoncrawl.CommonCrawl`: the provider instance.  `srcId` is the
identity of the instance used as the `Source` back-reference. -/
structure CommonCrawl where
  MaxTimeout : Nat := 0
  MaxRetries : Nat := 0
  indexes : List LatestIndex := []
  srcId : Nat := 0
  deriving Repr, DecidableEq

/-- The loop body of `CommonCrawl.filterIndices`: skip an index iff a
set `FromDate` is after the index's `From`, or a set `ToDate` is before
the index's `To`; otherwise append its id (two `continue` branches in
the source). -/
def filterIndicesLoop (config : RequestConfig) : List LatestIndex → List String
  | [] => []
  | idx :: rest =>
    if (!config.FromDate.IsZero) && config.FromDate.After idx.From then
      filterIndicesLoop config rest
    else if (!config.ToDate.IsZero) && config.ToDate.Before idx.To then
      filterIndicesLoop config rest
    else
      idx.Id :: filterIndicesLoop config rest

/-- Model of `CommonCrawl.filterIndices`: with no date bound set it returns
`[cc.indexes[0].Id]` — the indexing panics when the cached index list is
empty, modelled as `none`.  Otherwise it runs the filtering loop. -/
def filterIndices (cc : CommonCrawl) (config : RequestConfig) : Option (List String) :=
  if config.FromDate.IsZero && config.ToDate.IsZero then
    match cc.indexes with
    | [] => none
    | idx :: _ => some [idx.Id]
  else
    some (filterIndicesLoop config cc.indexes)

/-- Mathematical decimal interpretation of a digit string (no range
limit; what `strconv.Atoi` would return on an unbounded integer type). -/
def atoiNat (s : List Char) : Nat :=
  s.foldl (fun a c => 10 * a + (c.toNat - 48)) 0

/-- Largest value of Go's 64-bit `int`. -/
def MaxInt64 : Nat := 2 ^ 63 - 1

/-- Go 64-bit `int` value of a non-negative sum: two's-complement
wrapping of `n` into `[-2^63, 2^63)`. -/
def wrap64 (n : Nat) : Int :=
  if n % 2 ^ 64 < 2 ^ 63 then ((n % 2 ^ 64 : Nat) : Int)
  else ((n % 2 ^ 64 : Nat) : Int) - 2 ^ 64

/-- Model of `strconv.Atoi` with the error discarded, as `GetFile` uses
it (`offset, _ := strconv.Atoi(page.Offset)`): a syntactically malformed
input leaves the Go zero value 0, and a digit string whose value
exceeds `MaxInt64` is clamped to `MaxInt64` (the value `ParseInt`
returns alongside its range error, which `GetFile` discards).  Records
obey the invariant that `Offset`/`Length` are non-negative decimals, so
signs are not modelled. -/
def goAtoi (s : String) : Nat :=
  if s.data ≠ [] ∧ s.data.all Char.isDigit then min (atoiNat s.data) MaxInt64 else 0

/-- The `Range` header value built by `CommonCrawl.GetFile`:
`fmt.Sprintf("bytes=%v-%v", page.Offset, offset+length+1)` — the start
is the record's raw `Offset` string, the end is `offset + length + 1`
computed in Go's wrapping 64-bit `int` arithmetic and printed in signed
decimal. -/
def GetFileRangeHeader (page : CdxResponse) : String :=
  "bytes=" ++ page.Offset ++ "-" ++
    toString (wrap64 (goAtoi page.Offset + goAtoi page.Length + 1))

/-- Environment for the orchestrators: the outcomes of the external
calls.  `numPages url idx` is `GetNumPagesIndex(url, idx)`;
`fetch reqURL` is `common.Get(reqURL, …)` returning the body bytes and
the error, if any (on error the body holds whatever partial bytes
`io.ReadAll` produced); `unm` is `jsoniter.Unmarshal` on one line. -/
structure CCEnv where
  numPages : String → String → Except String Nat
  fetch : String → List Char × Option String
  unm : List Char → Except String CdxResponse

/-- One send on one of the two channels of `FetchPages`, in send
order. -/
inductive Event where
  | res (batch : List CdxResponse)
  | err (msg : String)
  deriving Repr, DecidableEq

/-- One iteration of the inner page loop of `CommonCrawl.FetchPages`:
fetch the page, report a fetch error (if any) on the error channel,
parse the body, report a parse error (if any) on the error channel, and
send the decoded batch (nil when parsing failed) on the results
channel.  Returns the events in send order together with the batch that
was counted into `numResults`. -/
def streamPage (env : CCEnv) (cc : Nat) (reqURL : String) : List Event × List CdxResponse :=
  let fr := env.fetch reqURL
  let ev1 : List Event :=
    match fr.2 with
    | some e => [.err ("[FetchPages] Request error: " ++ e)]
    | none => []
  match ParseResponse env.unm cc fr.1 with
  | .error e => (ev1 ++ [.err ("[FetchPages] Cannot parse response: " ++ e), .res []], [])
  | .ok batch => (ev1 ++ [.res batch], batch)

/-- The inner page loop of `CommonCrawl.FetchPages` over the remaining
page indices, threading `numResults`; the `Bool` is true when the loop
executed the early `return` (non-zero limit reached). -/
def streamPagesLoop (env : CCEnv) (cc : Nat) (config : RequestConfig) (indexURL : String) :
    List Nat → Nat → List Event × Nat × Bool
  | [], n => ([], n, false)
  | p :: ps, n =>
    let reqURL := config.GetUrl indexURL p
    let (evs, batch) := streamPage env cc reqURL
    let n2 := n + batch.length
    if config.Limit ≠ 0 ∧ config.Limit ≤ n2 then (evs, n2, true)
    else
      let (evs2, n3, stop) := streamPagesLoop env cc config indexURL ps n2
      (evs ++ evs2, n3, stop)

/-- The page count one index contributes to `FetchPages`: 1 when
`SinglePage`, else the `GetNumPagesIndex` result, whose Go zero value 0
is kept when that call errors. -/
def pagesOf (env : CCEnv) (config : RequestConfig) (idx : String) : Nat :=
  if config.SinglePage then 1
  else
    match env.numPages config.URL idx with
    | .ok k => k
    | .error _ => 0

/-- The error-channel sends made while resolving one index's page count
in `FetchPages`: none when `SinglePage` or on success, the
`GetNumPagesIndex` error otherwise. -/
def idxPrelude (env : CCEnv) (config : RequestConfig) (idx : String) : List Event :=
  if config.SinglePage then []
  else
    match env.numPages config.URL idx with
    | .ok _ => []
    | .error e => [.err e]

/-- The outer snapshot loop of `CommonCrawl.FetchPages`: per index,
resolve the page count (sending any `GetNumPagesIndex` error), run the
page loop, and stop everything if it returned early. -/
def streamIndices (env : CCEnv) (cc : CommonCrawl) (config : RequestConfig) :
    List String → Nat → List Event
  | [], _ => []
  | idx :: rest, n =>
    let prel := idxPrelude env config idx
    let indexURL := INDEX_SERVER ++ idx ++ "-index"
    let (evs, n2, stop) :=
      streamPagesLoop env cc.srcId config indexURL (List.range (pagesOf env config idx)) n
    if stop then prel ++ evs
    else prel ++ evs ++ streamIndices env cc config rest n2

/-- Model of `CommonCrawl.FetchPages`: stream every page of every index selected
by `filterIndices` (`none` when `filterIndices` panics on an empty
cached index list). -/
def FetchPages (env : CCEnv) (cc : CommonCrawl) (config : RequestConfig) :
    Option (List Event) :=
  (filterIndices cc config).map fun idxs => streamIndices env cc config idxs 0

/-- The outcome of one page of `CommonCrawl.GetPagesIndex`: the request
error or the parse error, wrapped as the source wraps them, or the
decoded batch. -/
def pageResult (env : CCEnv) (cc : Nat) (config : RequestConfig) (indexURL : String)
    (p : Nat) : Except String (List CdxResponse) :=
  let fr := env.fetch (config.GetUrl indexURL p)
  match fr.2 with
  | some e => .error ("[GetPagesIndex] Request error: " ++ e)
  | none =>
    match ParseResponse env.unm cc fr.1 with
    | .error e => .error ("[GetPagesIndex] Cannot parse response: " ++ e)
    | .ok batch => .ok batch

/-- The page loop of `CommonCrawl.GetPagesIndex`: on any page failure
return the results accumulated so far together with the error; on
success append the batch and break once a non-zero limit is reached. -/
def fetchAllLoop (env : CCEnv) (cc : Nat) (config : RequestConfig) (indexURL : String) :
    List Nat → List CdxResponse → Nat → List CdxResponse × Option String
  | [], acc, _ => (acc, none)
  | p :: ps, acc, n =>
    match pageResult env cc config indexURL p with
    | .error e => (acc, some e)
    | .ok batch =>
      let acc2 := acc ++ batch
      let n2 := n + batch.length
      if config.Limit ≠ 0 ∧ config.Limit ≤ n2 then (acc2, none)
      else fetchAllLoop env cc config indexURL ps acc2 n2

/-- Model of `CommonCrawl.GetPagesIndex`: resolve the page count (1 when
`SinglePage`, else `GetNumPagesIndex`, whose failure aborts with a nil
result), then run the page loop from page 0. -/
def GetPagesIndex (env : CCEnv) (cc : CommonCrawl) (config : RequestConfig)
    (index : String) : List CdxResponse × Option String :=
  match (if config.SinglePage then Except.ok 1 else env.numPages config.URL index) with
  | .error e => ([], some e)
  | .ok pages =>
    fetchAllLoop env cc.srcId config (INDEX_SERVER ++ index ++ "-index") (List.range pages) [] 0

/-- Modelled from the spec: the §6 CDX query grammar
`<server>?url=<pattern>&output=json[&limit=N][&collapse=COL][&filter=F]*[&from=YYYYMMDD][&to=YYYYMMDD][&page=P]`,
written as one concatenation of optional pieces (`limit` present iff
non-zero, `collapse` iff the column is non-empty, one `filter` per
non-empty filter expression, `from`/`to` iff the date is set, `page`
absent iff `SinglePage`). -/
def CdxQueryUrlSpec (config : RequestConfig) (serverURL : String) (page : Nat) : String :=
  serverURL ++ "?url=" ++ config.URL ++ "&output=json"
    ++ (if config.Limit = 0 then "" else "&limit=" ++ toString config.Limit)
    ++ (if config.CollapseColumn = "" then "" else "&collapse=" ++ config.CollapseColumn)
    ++ (config.Filters.filter (· ≠ "")).foldr (fun f acc => "&filter=" ++ f ++ acc) ""
    ++ (if config.FromDate.IsZero then "" else "&from=" ++ config.FromDate.ymd)
    ++ (if config.ToDate.IsZero then "" else "&to=" ++ config.ToDate.ymd)
    ++ (if config.SinglePage then "" else "&page=" ++ toString page)

/-- The batch a page contributes to `GetPagesIndex` when it succeeds
(`[]` for a failed page, which aborts the loop anyway). -/
def okBatch (env : CCEnv) (cc : Nat) (config : RequestConfig) (indexURL : String)
    (p : Nat) : List CdxResponse :=
  (pageResult env cc config indexURL p).toOption.getD []

/-- The records accumulated by `GetPagesIndex` over pages `0 … k-1`. -/
def accUpTo (env : CCEnv) (cc : Nat) (config : RequestConfig) (indexURL : String)
    (k : Nat) : List CdxResponse :=
  (List.range k).flatMap (okBatch env cc config indexURL)

/-- NDJSON encoding of a list of lines: each line followed by a newline,
the final line newline-terminated, as the CDX endpoints return pages. -/
def ndjson (lines : List (List Char)) : List Char :=
  (lines.map (· ++ ['\n'])).flatten

/-! ### Concrete fixtures used by the witness theorems -/

/-- Fixture record decoded from the line `a`. -/
def recA : CdxResponse := { Urlkey := "a" }

/-- Fixture record decoded from the line `b`. -/
def recB : CdxResponse := { Urlkey := "b" }

/-- Fixture JSON decoder: accepts exactly the one-character lines `a`
and `b`. -/
def unmW : List Char → Except String CdxResponse
  | ['a'] => .ok recA
  | ['b'] => .ok recB
  | l => .error ("invalid character at " ++ String.mk l)

/-- Fixture request configuration: no limit, no date bounds, paginated. -/
def cfgW : RequestConfig := { URL := "example.com" }

/-- Fixture provider instance with one cached index. -/
def ccW : CommonCrawl := { indexes := [{ Id := "CC-X" }], srcId := 7 }

/-- Fixture environment for the streaming claims: the index `CC-X` has
two pages, page 0 fails at the transport level with an empty body, and
every other fetch returns one decodable line. -/
def envW : CCEnv where
  numPages := fun _ idx => if idx = "CC-X" then .ok 2 else .error "no such index"
  fetch := fun u =>
    if u = cfgW.GetUrl (INDEX_SERVER ++ "CC-X" ++ "-index") 0 then ([], some "boom")
    else (ndjson [['a']], none)
  unm := unmW

/-- Fixture environment for the bounded orchestrator claim: page 0
succeeds with one record, page 1 fails at the transport level. -/
def envW5 : CCEnv where
  numPages := fun _ idx => if idx = "CC-X" then .ok 2 else .error "no such index"
  fetch := fun u =>
    if u = cfgW.GetUrl (INDEX_SERVER ++ "CC-X" ++ "-index") 1 then ([], some "boom")
    else (ndjson [['a']], none)
  unm := unmW

/-! ## Helper lemmas -/

theorem splitNl_ne_nil (l : List Char) : splitNl l ≠ [] := by
  cases l with
  | nil => simp [splitNl]
  | cons c rest =>
    simp only [splitNl]
    cases h : splitNl rest with
    | nil => simp
    | cons a as => by_cases hc : c = '\n' <;> simp [hc]

theorem splitNl_no_nl (l : List Char) (h : '\n' ∉ l) : splitNl l = [l] := by
  induction l with
  | nil => rfl
  | cons c rest ih =>
    have hc : ¬c = '\n' := fun e => h (by simp [e])
    have hr := ih fun m => h (List.mem_cons_of_mem _ m)
    simp [splitNl, hr, hc]

theorem splitNl_append_nl (l rest : List Char) (h : '\n' ∉ l) :
    splitNl (l ++ '\n' :: rest) = l :: splitNl rest := by
  induction l with
  | nil =>
    obtain ⟨a, as, he⟩ := List.exists_cons_of_ne_nil (splitNl_ne_nil rest)
    simp [splitNl, he]
  | cons c l' ih =>
    have hc : ¬c = '\n' := fun e => h (by simp [e])
    have hr := ih fun m => h (List.mem_cons_of_mem _ m)
    simp only [List.cons_append, splitNl, List.append_eq]
    rw [hr]
    simp [hc]

theorem ndjson_ne_nil (lines : List (List Char)) (h : lines ≠ []) : ndjson lines ≠ [] := by
  obtain ⟨l0, ls, rfl⟩ := List.exists_cons_of_ne_nil h
  simp [ndjson]

theorem splitNl_ndjson : ∀ lines : List (List Char), lines ≠ [] →
    (∀ l ∈ lines, '\n' ∉ l) → splitNl (ndjson lines).dropLast = lines := by
  intro lines
  induction lines with
  | nil => intro h; exact absurd rfl h
  | cons l rest ih =>
    intro _ hnl
    cases rest with
    | nil =>
      have h1 : ndjson [l] = l ++ ['\n'] := by simp [ndjson]
      rw [h1, List.dropLast_concat]
      exact splitNl_no_nl l (hnl l (by simp))
    | cons l2 rest2 =>
      have h1 : ndjson (l :: l2 :: rest2) = (l ++ ['\n']) ++ ndjson (l2 :: rest2) := by
        simp [ndjson]
      rw [h1, List.dropLast_append_of_ne_nil _ (ndjson_ne_nil (l2 :: rest2) (by simp))]
      have h2 : (l ++ ['\n']) ++ (ndjson (l2 :: rest2)).dropLast =
          l ++ '\n' :: (ndjson (l2 :: rest2)).dropLast := by simp
      rw [h2, splitNl_append_nl _ _ (hnl l (by simp))]
      rw [ih (by simp) fun x hx => hnl x (List.mem_cons_of_mem _ hx)]

theorem filterIndicesLoop_eq_filter (config : RequestConfig) (l : List LatestIndex) :
    filterIndicesLoop config l =
      (l.filter fun idx =>
        !((!config.FromDate.IsZero) && config.FromDate.After idx.From) &&
        !((!config.ToDate.IsZero) && config.ToDate.Before idx.To)).map (·.Id) := by
  induction l with
  | nil => rfl
  | cons idx rest ih =>
    simp only [filterIndicesLoop, List.filter_cons]
    cases hf : config.FromDate.IsZero <;> cases ht : config.ToDate.IsZero <;>
      cases ha : config.FromDate.After idx.From <;> cases hb : config.ToDate.Before idx.To <;>
      simp [hf, ht, ha, hb, ih]

theorem parseLines_ok (unm : List Char → Except String CdxResponse) (cc : Nat) :
    ∀ (lines : List (List Char)) (recs : List CdxResponse),
      List.Forall₂ (fun l r => unm l = Except.ok r) lines recs →
      parseLines unm cc lines =
        .ok (recs.map fun r => { r with Source := some cc }) := by
  intro lines recs h
  induction h with
  | nil => rfl
  | cons h1 _ ih => simp [parseLines, h1, ih]

theorem parseLines_first_error (unm : List Char → Except String CdxResponse) (cc : Nat) :
    ∀ (good : List (List Char)) (bad rest e),
      (∀ l ∈ good, ∃ r, unm l = Except.ok r) → unm bad = .error e →
      parseLines unm cc (good ++ bad :: rest) =
        .error ("[ParseResponse] Cannot decode JSON line: " ++ e ++
          ". Response: " ++ String.mk bad) := by
  intro good
  induction good with
  | nil => intro bad rest e _ hbad; simp [parseLines, hbad]
  | cons g gs ih =>
    intro bad rest e hok hbad
    obtain ⟨r, hr⟩ := hok g (by simp)
    have ht := ih bad rest e (fun l hl => hok l (by simp [hl])) hbad
    simp [parseLines, hr, ht]

/-! ## C1 -/

/-- Claim C1. The claim states that when every one of the `maxRetries`
attempts of `common.Get` fails, `Get` returns the body/error of the
last attempt without panicking and never dereferences an absent (nil)
response.  The code violates this: after the loop it unconditionally
runs `defer resp.Body.Close()`, and when the last attempt failed with a
transport error `resp` is nil, so `Get` dereferences the nil response
and panics.  This theorem evaluates the embedded code on a run whose
two attempts both fail with transport errors. -/
theorem get_total_retry_failure_panics :
    Get [AttemptResult.fail "dial tcp: connection refused",
         AttemptResult.fail "dial tcp: connection refused"] = GetResult.panicNilDeref := rfl

/-! ## C8 -/

/-- Claim C8. `ParseResponse` on zero-length input fails with the
distinguished "empty response" error (and, being total here, does not
panic): the source checks `len(resp) == 0` before slicing off the final
byte. -/
theorem parseResponse_empty_input (unm : List Char → Except String CdxResponse) (cc : Nat) :
    ParseResponse unm cc [] = .error "Empty response provided" := rfl

/-! ## C9 -/

/-- Counterexample for C9 as universally stated: at
`offset = "9223372036854775807"` (`MaxInt64`, a decimal integer string)
and `length = "1"`, the 64-bit sum `offset + length + 1` wraps to
`-9223372036854775807`, so the code emits
`bytes=9223372036854775807--9223372036854775807` and not
`bytes=<offset>-<offset+length+1>` (which would end in
`9223372036854775809`). -/
theorem getFile_range_header_overflow :
    GetFileRangeHeader { Offset := "9223372036854775807", Length := "1" } =
      "bytes=9223372036854775807--9223372036854775807" ∧
    GetFileRangeHeader { Offset := "9223372036854775807", Length := "1" } ≠
      "bytes=" ++ "9223372036854775807" ++ "-" ++
        toString (9223372036854775807 + 1 + 1 : Nat) := by
  constructor
  · rfl
  · decide

/-- Claim C9 (amended). For a record whose `Offset` and `Length` fields
are decimal integer strings denoting `m` and `n` with
`m + n + 1 ≤ MaxInt64` (no 64-bit overflow), `GetFile` computes the
range end as `m + n + 1` and issues its request with header value
`bytes=<offset>-<m+n+1>`. -/
theorem getFile_range_header (page : CdxResponse) (m n : Nat)
    (ho : page.Offset.data ≠ [] ∧ page.Offset.data.all Char.isDigit)
    (hl : page.Length.data ≠ [] ∧ page.Length.data.all Char.isDigit)
    (hm : atoiNat page.Offset.data = m) (hn : atoiNat page.Length.data = n)
    (hfit : m + n + 1 ≤ MaxInt64) :
    GetFileRangeHeader page = "bytes=" ++ page.Offset ++ "-" ++ toString (m + n + 1) := by
  unfold GetFileRangeHeader goAtoi
  rw [if_pos ho, if_pos hl, hm, hn]
  have hm' : min m MaxInt64 = m := Nat.min_eq_left (by omega)
  have hn' : min n MaxInt64 = n := Nat.min_eq_left (by omega)
  rw [hm', hn']
  have hlt : m + n + 1 < 2 ^ 63 := by
    have : MaxInt64 < 2 ^ 63 := by unfold MaxInt64; omega
    omega
  have hw : wrap64 (m + n + 1) = ((m + n + 1 : Nat) : Int) := by
    unfold wrap64
    have h2 : (m + n + 1) % 2 ^ 64 = m + n + 1 :=
      Nat.mod_eq_of_lt (by
        have : (2 : Nat) ^ 63 < 2 ^ 64 := by norm_num
        omega)
    rw [h2, if_pos hlt]
  rw [hw]
  rfl

/-- Witness for C9: `offset="100"`, `length="50"` yields
`Range: bytes=100-151`. -/
theorem getFile_range_header_witness :
    GetFileRangeHeader { Offset := "100", Length := "50" } = "bytes=100-151" :=
  (getFile_range_header { Offset := "100", Length := "50" } 100 50
    (by decide) (by decide) (by decide) (by decide) (by decide)).trans (by decide)

/-! ## C6 -/

/-- Claim C6. On a non-empty sequence of well-formed JSON lines with the
final line newline-terminated, `ParseResponse` returns one record per
line, in input order, each record being exactly what the JSON decoder
produced for its line with the provider back-reference (`Source`) set
to the decoding provider instance. -/
theorem parseResponse_ndjson_ok (unm : List Char → Except String CdxResponse) (cc : Nat)
    (lines : List (List Char)) (recs : List CdxResponse)
    (hne : lines ≠ []) (hnl : ∀ l ∈ lines, '\n' ∉ l)
    (hok : List.Forall₂ (fun l r => unm l = Except.ok r) lines recs) :
    ParseResponse unm cc (ndjson lines) =
      .ok (recs.map fun r => { r with Source := some cc }) := by
  rw [ParseResponse, if_neg (by simp [List.length_eq_zero, ndjson_ne_nil lines hne])]
  rw [splitNl_ndjson lines hne hnl]
  exact parseLines_ok unm cc lines recs hok

/-- Witness for C6: two well-formed lines decode to two records, in
order, each with the back-reference set. -/
theorem parseResponse_ndjson_ok_witness :
    ParseResponse unmW 7 (ndjson [['a'], ['b']]) =
      .ok ([recA, recB].map fun r => { r with Source := some 7 }) :=
  parseResponse_ndjson_ok unmW 7 [['a'], ['b']] [recA, recB] (by decide) (by decide)
    (.cons rfl (.cons rfl .nil))

/-! ## C7 -/

/-- Claim C7. On input containing a malformed line, `ParseResponse` stops
at the first malformed line and fails with a decode error that embeds
the offending line's raw text; no partially decoded records are
returned (the error carries none). -/
theorem parseResponse_first_malformed (unm : List Char → Except String CdxResponse)
    (cc : Nat) (good : List (List Char)) (bad : List Char) (rest : List (List Char))
    (e : String)
    (hok : ∀ l ∈ good, ∃ r, unm l = Except.ok r)
    (hnl : ∀ l ∈ good ++ bad :: rest, '\n' ∉ l)
    (hbad : unm bad = .error e) :
    ParseResponse unm cc (ndjson (good ++ bad :: rest)) =
      .error ("[ParseResponse] Cannot decode JSON line: " ++ e ++
        ". Response: " ++ String.mk bad) := by
  have hne : good ++ bad :: rest ≠ [] := by simp
  rw [ParseResponse, if_neg (by simp [List.length_eq_zero, ndjson_ne_nil _ hne])]
  rw [splitNl_ndjson _ hne hnl]
  exact parseLines_first_error unm cc good bad rest e hok hbad

/-- Witness for C7: one good line followed by the malformed line `z`
fails with the error embedding `z`, with no records. -/
theorem parseResponse_first_malformed_witness :
    ParseResponse unmW 7 (ndjson [['a'], ['z']]) =
      .error ("[ParseResponse] Cannot decode JSON line: " ++
        "invalid character at z" ++ ". Response: " ++ String.mk ['z']) :=
  parseResponse_first_malformed unmW 7 [['a']] ['z'] [] "invalid character at z"
    (by intro l hl; simp at hl; subst hl; exact ⟨recA, rfl⟩) (by decide) rfl

/-! ## C4 -/

/-- Claim C4. `filterIndices` on a provider whose cached snapshot list is
non-empty: when both date bounds are unset it returns exactly the
one-element list holding the first snapshot's id; otherwise it returns,
in input order, exactly those snapshots not excluded by a set
`FromDate` lying after the snapshot's own start (`From`) nor by a set
`ToDate` lying before the snapshot's own end (`To`). -/
theorem filterIndices_spec (cc : CommonCrawl) (config : RequestConfig)
    (idx0 : LatestIndex) (rest : List LatestIndex) (h : cc.indexes = idx0 :: rest) :
    (config.FromDate.IsZero ∧ config.ToDate.IsZero →
      filterIndices cc config = some [idx0.Id]) ∧
    (¬(config.FromDate.IsZero ∧ config.ToDate.IsZero) →
      filterIndices cc config = some ((cc.indexes.filter fun idx =>
        !((!config.FromDate.IsZero) && config.FromDate.After idx.From) &&
        !((!config.ToDate.IsZero) && config.ToDate.Before idx.To)).map (·.Id))) := by
  constructor
  · intro hz
    simp [filterIndices, h, hz.1, hz.2]
  · intro hz
    have hb : (config.FromDate.IsZero && config.ToDate.IsZero) = false := by
      cases hf : config.FromDate.IsZero <;> cases ht : config.ToDate.IsZero <;> simp_all
    rw [filterIndices, if_neg (by simp [hb])]
    rw [filterIndicesLoop_eq_filter]

/-- Counterexample for C4 as universally stated: on a provider whose
cached snapshot list is empty (construction succeeds with an empty
catalog array), both bounds unset make `filterIndices` evaluate
`cc.indexes[0]`, which panics (`none`) instead of returning a
one-element list. -/
theorem filterIndices_empty_list_panics :
    filterIndices { indexes := ([] : List LatestIndex) } ({} : RequestConfig) = none := rfl

/-- Witness for C4: a two-snapshot list with both bounds unset selects
exactly the first snapshot. -/
theorem filterIndices_spec_witness :
    ({ indexes := [{ Id := "CC-MAIN-2024-10" }, { Id := "CC-MAIN-2023-50" }] } :
        CommonCrawl).indexes = { Id := "CC-MAIN-2024-10" } :: [{ Id := "CC-MAIN-2023-50" }] ∧
    filterIndices { indexes := [{ Id := "CC-MAIN-2024-10" }, { Id := "CC-MAIN-2023-50" }] } {} =
      some ["CC-MAIN-2024-10"] :=
  ⟨rfl, (filterIndices_spec _ {} { Id := "CC-MAIN-2024-10" } [{ Id := "CC-MAIN-2023-50" }]
    rfl).1 (by decide)⟩

/-! ## C3 -/

/-- Claim C3. Every iteration of the page loop of `FetchPages` sends
exactly one value on the results channel, as its last send, even when
the page's fetch or decode failed: the preceding sends are all error
sends, and when decoding the page's body failed the batch sent (and
counted) is the empty one. -/
theorem streamPage_always_sends (env : CCEnv) (cc : Nat) (reqURL : String) :
    ∃ pre batch, streamPage env cc reqURL = (pre ++ [Event.res batch], batch) ∧
      (∀ ev ∈ pre, ∃ m, ev = Event.err m) ∧
      (∀ e, ParseResponse env.unm cc (env.fetch reqURL).1 = .error e → batch = []) := by
  rcases hfr : env.fetch reqURL with ⟨body, ferr⟩
  simp only [streamPage, hfr]
  cases ferr with
  | none =>
    cases hp : ParseResponse env.unm cc body with
    | error e =>
      exact ⟨[Event.err ("[FetchPages] Cannot parse response: " ++ e)], [], rfl,
        by intro ev hev; simp at hev; exact ⟨_, hev⟩, fun _ _ => rfl⟩
    | ok batch =>
      refine ⟨[], batch, rfl, by intro ev hev; simp at hev, ?_⟩
      intro e he
      exact absurd he (by simp)
  | some msg =>
    cases hp : ParseResponse env.unm cc body with
    | error e =>
      exact ⟨[Event.err ("[FetchPages] Request error: " ++ msg),
        Event.err ("[FetchPages] Cannot parse response: " ++ e)], [], rfl,
        by intro ev hev; simp at hev; rcases hev with h | h <;> exact ⟨_, h⟩,
        fun _ _ => rfl⟩
    | ok batch =>
      refine ⟨[Event.err ("[FetchPages] Request error: " ++ msg)], batch, rfl,
        by intro ev hev; simp at hev; exact ⟨_, hev⟩, ?_⟩
      intro e he
      exact absurd he (by simp)

/-- Witness for C3 at a concrete failed page: the fixture's page 0 of
`CC-X` fails, and the empty batch is still sent after the errors. -/
theorem streamPage_always_sends_witness :
    ∃ pre batch,
      streamPage envW 7 (cfgW.GetUrl (INDEX_SERVER ++ "CC-X" ++ "-index") 0) =
        (pre ++ [Event.res batch], batch) ∧
      (∀ ev ∈ pre, ∃ m, ev = Event.err m) ∧
      (∀ e, ParseResponse envW.unm 7
          (envW.fetch (cfgW.GetUrl (INDEX_SERVER ++ "CC-X" ++ "-index") 0)).1 =
          .error e → batch = []) :=
  streamPage_always_sends envW 7 (cfgW.GetUrl (INDEX_SERVER ++ "CC-X" ++ "-index") 0)

/-! ## C10 -/

/-- The filter part of `GetUrl`'s fold equals one concatenated piece
per non-empty filter expression. -/
theorem getUrl_filters_fold (fs : List String) :
    ∀ u : String, fs.foldl (fun u f => if f ≠ "" then u ++ "&filter=" ++ f else u) u =
      u ++ (fs.filter (· ≠ "")).foldr (fun f acc => "&filter=" ++ f ++ acc) "" := by
  induction fs with
  | nil => intro u; simp
  | cons f fs ih =>
    intro u
    by_cases hf : f = ""
    · subst hf; simpa using ih u
    · have h1 : (if f ≠ "" then u ++ "&filter=" ++ f else u) = u ++ "&filter=" ++ f :=
        if_pos hf
      rw [List.foldl_cons, h1, ih (u ++ "&filter=" ++ f),
        List.filter_cons_of_pos (by simp [hf])]
      simp [String.append_assoc]

/-- Claim C10. The query-string builder is a pure function of the config,
server URL and page index (hence deterministic call-to-call), and its
output coincides with the §6 CDX query grammar: `limit` present iff
non-zero, `collapse` iff the collapse column is non-empty, one `filter`
per non-empty filter expression, `from`/`to` iff the date bound is set,
and `page` omitted exactly when the single-page flag is set, in that
order. -/
theorem getUrl_matches_grammar (config : RequestConfig) (serverURL : String) (page : Nat) :
    config.GetUrl serverURL page = CdxQueryUrlSpec config serverURL page := by
  apply String.ext
  simp only [RequestConfig.GetUrl, CdxQueryUrlSpec]
  rw [getUrl_filters_fold]
  by_cases hL : config.Limit = 0 <;>
    by_cases hC : config.CollapseColumn = "" <;>
      cases hF : config.FromDate.IsZero <;>
        cases hT : config.ToDate.IsZero <;>
          cases hS : config.SinglePage <;>
            simp [hL, hC, hF, hT, hS, String.data_append, List.append_assoc]

/-! ## C2 -/

theorem streamPagesLoop_no_limit (env : CCEnv) (cc : Nat) (config : RequestConfig)
    (indexURL : String) (hlim : config.Limit = 0) :
    ∀ (ps : List Nat) (n : Nat),
      streamPagesLoop env cc config indexURL ps n =
        (ps.flatMap fun p => (streamPage env cc (config.GetUrl indexURL p)).1,
         n + (ps.flatMap fun p => (streamPage env cc (config.GetUrl indexURL p)).2).length,
         false) := by
  intro ps
  induction ps with
  | nil => intro n; simp [streamPagesLoop]
  | cons p ps ih =>
    intro n
    rcases hsp : streamPage env cc (config.GetUrl indexURL p) with ⟨evs, batch⟩
    simp only [streamPagesLoop, hsp]
    rw [if_neg (by simp [hlim])]
    rw [ih (n + batch.length)]
    simp [List.flatMap_cons, hsp, Nat.add_assoc]

theorem streamPagesLoop_stop_le (env : CCEnv) (cc : Nat) (config : RequestConfig)
    (indexURL : String) :
    ∀ (ps : List Nat) (n : Nat),
      (streamPagesLoop env cc config indexURL ps n).2.2 = true →
      config.Limit ≠ 0 ∧
        config.Limit ≤ (streamPagesLoop env cc config indexURL ps n).2.1 := by
  intro ps
  induction ps with
  | nil => intro n h; simp [streamPagesLoop] at h
  | cons p ps ih =>
    intro n
    rcases hsp : streamPage env cc (config.GetUrl indexURL p) with ⟨evs, batch⟩
    simp only [streamPagesLoop, hsp]
    by_cases hc : config.Limit ≠ 0 ∧ config.Limit ≤ n + batch.length
    · rw [if_pos hc]
      exact fun _ => hc
    · rw [if_neg hc]
      rcases hsl : streamPagesLoop env cc config indexURL ps (n + batch.length) with
        ⟨evs2, n3, stop⟩
      intro h
      simp only at h
      have := ih (n + batch.length)
      rw [hsl] at this
      exact this h

theorem streamIndices_no_limit (env : CCEnv) (cc : CommonCrawl) (config : RequestConfig)
    (hlim : config.Limit = 0) :
    ∀ (idxs : List String) (n : Nat),
      streamIndices env cc config idxs n =
        idxs.flatMap fun idx =>
          idxPrelude env config idx ++
            (List.range (pagesOf env config idx)).flatMap fun p =>
              (streamPage env cc.srcId
                (config.GetUrl (INDEX_SERVER ++ idx ++ "-index") p)).1 := by
  intro idxs
  induction idxs with
  | nil => intro n; rfl
  | cons idx rest ih =>
    intro n
    simp only [streamIndices]
    rw [streamPagesLoop_no_limit env cc.srcId config _ hlim]
    simp only [if_neg Bool.false_ne_true]
    rw [ih]
    simp [List.flatMap_cons, List.append_assoc]

/-- Claim C2. Per-page failures never stop the streaming loop of
`FetchPages`, and the loop returns early only to honour a non-zero
limit.  Concretely: (1) with `Limit = 0` (no limit), the trace of
`FetchPages` is exactly the concatenation, over every selected
snapshot in order, of its page-count events followed by the events of
every one of its pages in order — each failed page contributing its
error sends (and its empty batch) without cutting anything short; and
(2) the early `return` of the page loop fires only when the non-zero
limit has been reached by the cumulative record count. -/
theorem fetchPages_best_effort (env : CCEnv) (cc : CommonCrawl) (config : RequestConfig) :
    (config.Limit = 0 →
      FetchPages env cc config = (filterIndices cc config).map fun idxs =>
        idxs.flatMap fun idx =>
          idxPrelude env config idx ++
            (List.range (pagesOf env config idx)).flatMap fun p =>
              (streamPage env cc.srcId
                (config.GetUrl (INDEX_SERVER ++ idx ++ "-index") p)).1) ∧
    (∀ (indexURL : String) (ps : List Nat) (n : Nat),
      (streamPagesLoop env cc.srcId config indexURL ps n).2.2 = true →
      config.Limit ≠ 0 ∧
        config.Limit ≤ (streamPagesLoop env cc.srcId config indexURL ps n).2.1) := by
  constructor
  · intro hlim
    unfold FetchPages
    cases filterIndices cc config with
    | none => rfl
    | some idxs => simp [streamIndices_no_limit env cc config hlim idxs 0]
  · exact streamPagesLoop_stop_le env cc.srcId config

/-- Witness for C2: the fixture run (one snapshot, two pages, page 0
failing) iterates both pages and streams every event. -/
theorem fetchPages_best_effort_witness :
    FetchPages envW ccW cfgW = (filterIndices ccW cfgW).map fun idxs =>
      idxs.flatMap fun idx =>
        idxPrelude envW cfgW idx ++
          (List.range (pagesOf envW cfgW idx)).flatMap fun p =>
            (streamPage envW ccW.srcId
              (cfgW.GetUrl (INDEX_SERVER ++ idx ++ "-index") p)).1 :=
  (fetchPages_best_effort envW ccW cfgW).1 rfl

/-! ## C5 -/

theorem fetchAllLoop_ok_init_pages (env : CCEnv) (cc : Nat) (config : RequestConfig)
    (indexURL : String) :
    ∀ (ps qs : List Nat) (acc : List CdxResponse) (n : Nat),
      (∀ p ∈ ps, ∃ b, pageResult env cc config indexURL p = .ok b) →
      (∀ i < ps.length, ¬(config.Limit ≠ 0 ∧ config.Limit ≤
          n + ((ps.take (i + 1)).flatMap (okBatch env cc config indexURL)).length)) →
      fetchAllLoop env cc config indexURL (ps ++ qs) acc n =
        fetchAllLoop env cc config indexURL qs
          (acc ++ ps.flatMap (okBatch env cc config indexURL))
          (n + (ps.flatMap (okBatch env cc config indexURL)).length) := by
  intro ps
  induction ps with
  | nil => intro qs acc n _ _; simp
  | cons p ps ih =>
    intro qs acc n hok hnb
    obtain ⟨batch, hpr⟩ := hok p (by simp)
    have hob : okBatch env cc config indexURL p = batch := by
      simp [okBatch, hpr, Except.toOption]
    simp only [List.cons_append, fetchAllLoop, hpr, List.append_eq]
    rw [if_neg (by
      have h0 := hnb 0 (by simp)
      simpa [hob] using h0)]
    rw [ih qs (acc ++ batch) (n + batch.length)
      (fun q hq => hok q (by simp [hq]))
      (by
        intro i hi
        intro hcon
        refine hnb (i + 1) (by simpa using Nat.succ_lt_succ hi) ?_
        refine ⟨hcon.1, ?_⟩
        have h2 := hcon.2
        simp only [List.take_succ_cons, List.flatMap_cons, List.length_append, hob]
        omega)]
    simp [hob, List.flatMap_cons, List.append_assoc, Nat.add_assoc]

/-- Claim C5. In `GetPagesIndex` (the bounded synchronous orchestrator),
if pages `0 … k-1` all succeed without tripping the limit and page `k`
fails (request or decode), the whole call aborts at page `k` and
returns the error of page `k` together with every record accumulated
from the pages before it. -/
theorem getPagesIndex_aborts_on_failure (env : CCEnv) (cc : CommonCrawl)
    (config : RequestConfig) (index : String) (n k : Nat) (e : String)
    (hp : (if config.SinglePage then Except.ok 1 else env.numPages config.URL index)
        = Except.ok n)
    (hk : k < n)
    (hok : ∀ p, p < k →
      ∃ b, pageResult env cc.srcId config (INDEX_SERVER ++ index ++ "-index") p = .ok b)
    (hbad : pageResult env cc.srcId config (INDEX_SERVER ++ index ++ "-index") k = .error e)
    (hnb : ∀ p, p < k → ¬(config.Limit ≠ 0 ∧ config.Limit ≤
        (accUpTo env cc.srcId config (INDEX_SERVER ++ index ++ "-index") (p + 1)).length)) :
    GetPagesIndex env cc config index =
      (accUpTo env cc.srcId config (INDEX_SERVER ++ index ++ "-index") k, some e) := by
  have hstep : GetPagesIndex env cc config index =
      fetchAllLoop env cc.srcId config (INDEX_SERVER ++ index ++ "-index")
        (List.range n) [] 0 := by
    unfold GetPagesIndex
    rw [hp]
  obtain ⟨tail, hsplit⟩ : ∃ tail, List.range n = List.range k ++ k :: tail := by
    refine ⟨(List.range (n - k - 1)).map (k + 1 + ·), ?_⟩
    have h1 : n = (k + 1) + (n - k - 1) := by omega
    conv_lhs => rw [h1]
    rw [List.range_add, List.range_succ]
    simp [List.append_assoc]
  rw [hstep, hsplit,
    fetchAllLoop_ok_init_pages env cc.srcId config _ (List.range k) (k :: tail) [] 0
    (fun p hp2 => hok p (List.mem_range.mp hp2))
    (by
      intro i hi
      rw [List.length_range] at hi
      have h3 := hnb i hi
      rw [List.take_range, Nat.min_eq_left (by omega)]
      simpa [accUpTo] using h3)]
  simp only [fetchAllLoop, hbad]
  simp [accUpTo]

/-- Witness for C5: in the fixture where page 0 yields one record and
page 1 fails, `GetPagesIndex` returns page 0's records plus page 1's
wrapped request error. -/
theorem getPagesIndex_aborts_on_failure_witness :
    GetPagesIndex envW5 ccW cfgW "CC-X" =
      (accUpTo envW5 ccW.srcId cfgW (INDEX_SERVER ++ "CC-X" ++ "-index") 1,
       some "[GetPagesIndex] Request error: boom") :=
  getPagesIndex_aborts_on_failure envW5 ccW cfgW "CC-X" 2 1
    "[GetPagesIndex] Request error: boom" rfl (by decide)
    (fun p hp => by
      have : p = 0 := Nat.lt_one_iff.mp hp
      subst this
      exact ⟨[{ recA with Source := some 7 }], rfl⟩)
    rfl
    (fun p hp hcon => hcon.1 rfl)

end GoGetCrawl
